import Mathlib

/-!
Verification of the butano `bn::unique_ptr` (src/unnamed/part_000) and
`btn::array` (src/butano/include/btn_array.h) against their specification.

Pointers are modelled as natural numbers with `0` playing the role of the
null pointer.  The deleter of a `unique_ptr` is modelled by an identifying
tag; every operation that may invoke the deleter returns, next to the
updated handle(s), the list of deleter invocations it performed, as pairs
`(deleter tag, address the deleter was applied to)`.
-/

namespace bn

/-- Addresses; `0` models the null pointer. -/
abbrev Ptr := Nat

/-- The null pointer. -/
def nullptr : Ptr := 0

/-- A deleter invocation event: the deleter's tag and the address it was
applied to. -/
abbrev DelEvent := Nat × Ptr

/-- `bn::unique_ptr`: a managed address `_ptr` (default null) and a deleter,
modelled by a tag `_deleter`. -/
structure unique_ptr where
  _ptr : Ptr := nullptr
  _deleter : Nat
deriving Repr, DecidableEq

namespace unique_ptr

/-- `operator bool`: `return _ptr != nullptr;`. -/
def toBool (u : unique_ptr) : Bool := u._ptr != nullptr

/-- `get`: `return _ptr;`. -/
def get (u : unique_ptr) : Ptr := u._ptr

/-- `get_deleter`: `return _deleter;`. -/
def get_deleter (u : unique_ptr) : Nat := u._deleter

/-- `release`: `pointer result = _ptr; _ptr = nullptr; return result;`.
Returns the prior address, the updated handle, and the (empty) list of
deleter invocations. -/
def release (u : unique_ptr) : Ptr × unique_ptr × List DelEvent :=
  (u._ptr, { u with _ptr := nullptr }, [])

/-- `reset()`: `_deleter(_ptr); _ptr = nullptr;`. -/
def reset0 (u : unique_ptr) : unique_ptr × List DelEvent :=
  ({ u with _ptr := nullptr }, [(u._deleter, u._ptr)])

/-- `reset(pointer ptr)`: `if(ptr != _ptr) { reset(); _ptr = ptr; }`. -/
def reset (u : unique_ptr) (ptr : Ptr) : unique_ptr × List DelEvent :=
  if ptr ≠ u._ptr then
    let r := reset0 u
    ({ r.1 with _ptr := ptr }, r.2)
  else
    (u, [])

/-- Move constructor: `_ptr(other.release()), _deleter(move(other._deleter))`.
Returns the constructed handle, the moved-from handle, and the deleter
invocations. -/
def moveCtor (other : unique_ptr) : unique_ptr × unique_ptr × List DelEvent :=
  let r := release other
  ({ _ptr := r.1, _deleter := r.2.1._deleter }, r.2.1, r.2.2)

/-- Move assignment between distinct objects:
`reset(other.release()); _deleter = move(other._deleter);`.
Returns the updated assignee, the moved-from handle, and the deleter
invocations. -/
def moveAssign (self other : unique_ptr) : unique_ptr × unique_ptr × List DelEvent :=
  let r := release other
  let s := reset self r.1
  ({ s.1 with _deleter := r.2.1._deleter }, r.2.1, r.2.2 ++ s.2)

/-- Move assignment where `this` and `other` are the same object
(`h = move(h)`): the single state is threaded through
`reset(other.release()); _deleter = move(other._deleter);`. -/
def selfMoveAssign (u : unique_ptr) : unique_ptr × List DelEvent :=
  let r := release u
  let s := reset r.2.1 r.1
  ({ s.1 with _deleter := s.1._deleter }, r.2.2 ++ s.2)

/-- Destructor: `reset();` — returns the deleter invocations it performs. -/
def dtor (u : unique_ptr) : List DelEvent := (reset0 u).2

/-- `operator==(const unique_ptr&, nullptr_t)`: `return ! a._ptr;`. -/
def eqNull (u : unique_ptr) : Bool := u._ptr == nullptr

/-- `operator!=(const unique_ptr&, nullptr_t)`: `return a._ptr;`. -/
def neNull (u : unique_ptr) : Bool := u._ptr != nullptr

/-- `operator<(const unique_ptr&, nullptr_t)`: `return false;`. -/
def ltNull (_ : unique_ptr) : Bool := false

/-- `operator>(const unique_ptr&, nullptr_t)`: `return a._ptr;`. -/
def gtNull (u : unique_ptr) : Bool := u._ptr != nullptr

/-- `operator<=(const unique_ptr&, nullptr_t)`: `return ! a._ptr;`. -/
def leNull (u : unique_ptr) : Bool := u._ptr == nullptr

/-- `operator>=(const unique_ptr&, nullptr_t)`: `return true;`. -/
def geNull (_ : unique_ptr) : Bool := true

end unique_ptr

end bn

namespace bn.unique_ptr

/-- C1: moving handle `A` into handle `B` — by move construction or move
assignment — leaves `A` empty and `B` managing `A`'s original address with
`A`'s deleter; move assignment disposes `B`'s previous object exactly when
it differs from the incoming address, and move construction disposes
nothing. -/
theorem move_transfers_ownership (A B : unique_ptr) :
    (moveCtor A).1._ptr = A._ptr ∧
    (moveCtor A).1._deleter = A._deleter ∧
    (moveCtor A).2.1.toBool = false ∧
    (moveCtor A).2.2 = [] ∧
    (moveAssign B A).1._ptr = A._ptr ∧
    (moveAssign B A).1._deleter = A._deleter ∧
    (moveAssign B A).2.1.toBool = false ∧
    (moveAssign B A).2.2 =
      (if A._ptr ≠ B._ptr then [(B._deleter, B._ptr)] else []) := by
  unfold moveCtor moveAssign release reset reset0 toBool
  by_cases h : A._ptr = B._ptr
  · simp [h, nullptr]
  · simp [h, nullptr]

/-- C2: `release()` returns the managed address, leaves the handle empty and
invokes no deleter; destroying the handle afterwards applies the deleter
only to the null address. -/
theorem release_hands_over (u : unique_ptr) :
    (release u).1 = u._ptr ∧
    (release u).2.1.toBool = false ∧
    (release u).2.2 = [] ∧
    dtor (release u).2.1 = [(u._deleter, nullptr)] := by
  simp [release, toBool, dtor, reset0, nullptr]

/-- C3: `reset(q)` with `q` different from the current address disposes the
current object and binds the handle to `q`; `reset(get())` is a no-op that
invokes no deleter. -/
theorem reset_ptr_cases (u : unique_ptr) (q : Ptr) :
    (q ≠ u._ptr →
      reset u q = ({ _ptr := q, _deleter := u._deleter }, [(u._deleter, u._ptr)])) ∧
    reset u u.get = (u, []) := by
  constructor
  · intro h
    simp [reset, reset0, h]
  · simp [reset, get]

/-- Witness for C3 at a concrete handle and address. -/
theorem reset_ptr_cases_witness :
    reset ⟨5, 7⟩ 3 = (⟨3, 7⟩, [(7, 5)]) ∧ reset ⟨5, 7⟩ 5 = (⟨5, 7⟩, []) :=
  ⟨(reset_ptr_cases ⟨5, 7⟩ 3).1 (by decide), (reset_ptr_cases ⟨5, 7⟩ 5).2⟩

/-- C4: the no-argument `reset()` invokes the deleter on the current
address — even when that address is null — and then empties the handle; on
an already-empty handle the deleter receives null and the handle is left
unchanged. -/
theorem reset_void_spec (u : unique_ptr) :
    (reset0 u).1._ptr = nullptr ∧
    (reset0 u).2 = [(u._deleter, u._ptr)] ∧
    (u._ptr = nullptr → (reset0 u).1 = u ∧ (reset0 u).2 = [(u._deleter, nullptr)]) := by
  refine ⟨rfl, rfl, fun h => ⟨?_, ?_⟩⟩
  · simp [reset0, ← h]
  · simp [reset0, h]

/-- Witness for C4 at a concrete empty handle. -/
theorem reset_void_spec_witness :
    (reset0 ⟨nullptr, 7⟩).1._ptr = nullptr ∧
    (reset0 ⟨nullptr, 7⟩).2 = [(7, nullptr)] ∧
    (reset0 ⟨nullptr, 7⟩).1 = (⟨nullptr, 7⟩ : unique_ptr) := by
  have h := reset_void_spec ⟨nullptr, 7⟩
  exact ⟨h.1, h.2.1, (h.2.2 rfl).1⟩

/-- C5: the null-marker comparisons satisfy `(H==nullptr) == !bool(H)`,
`(H!=nullptr) == bool(H)`, `(H<nullptr) == false`, `(H>nullptr) == bool(H)`,
`(H<=nullptr) == !bool(H)` and `(H>=nullptr) == true`. -/
theorem null_comparisons (u : unique_ptr) :
    eqNull u = !u.toBool ∧ neNull u = u.toBool ∧ ltNull u = false ∧
    gtNull u = u.toBool ∧ leNull u = !u.toBool ∧ geNull u = true := by
  simp [eqNull, neNull, ltNull, gtNull, leNull, geNull, toBool, bne]

/-- C10: self move assignment on a handle managing a non-null address is
safe: the handle still manages the same address, the deleter is invoked only
on the null address during the operation, and later destruction still
disposes the managed object exactly once. -/
theorem self_move_assign_safe (u : unique_ptr) (h : u._ptr ≠ nullptr) :
    (selfMoveAssign u).1 = u ∧
    (selfMoveAssign u).2 = [(u._deleter, nullptr)] ∧
    dtor (selfMoveAssign u).1 = [(u._deleter, u._ptr)] := by
  unfold selfMoveAssign release reset reset0 dtor
  simp [nullptr] at h ⊢
  simp [h, reset0]

/-- Witness for C10 at a concrete non-empty handle. -/
theorem self_move_assign_safe_witness :
    (selfMoveAssign ⟨5, 7⟩).1 = (⟨5, 7⟩ : unique_ptr) ∧
    (selfMoveAssign ⟨5, 7⟩).2 = [(7, nullptr)] ∧
    dtor (selfMoveAssign ⟨5, 7⟩).1 = [(7, 5)] :=
  self_move_assign_safe ⟨5, 7⟩ (by decide)

end bn.unique_ptr

namespace btn

/-- `btn::array<Type, Size>`: a fixed sequence of exactly `Size` elements
(the source carries `static_assert(Size > 0)`). -/
structure array (α : Type) (Size : Nat) where
  _data : List α
  size_eq : _data.length = Size

/-- Modelled from the spec: `btn::equal` (btn_algorithm.h is not under
src/) — element-wise equality of the first range against the second. -/
def equalRange {α : Type} [DecidableEq α] : List α → List α → Bool
  | [], _ => true
  | _ :: _, [] => false
  | x :: xs, y :: ys => decide (x = y) && equalRange xs ys

/-- Modelled from the spec: `btn::lexicographical_compare`
(btn_algorithm.h is not under src/) — standard lexicographic less-than of
two ranges. -/
def lexLt {α : Type} [LinearOrder α] : List α → List α → Bool
  | _, [] => false
  | [], _ :: _ => true
  | x :: xs, y :: ys =>
    if x < y then true
    else if y < x then false
    else lexLt xs ys

namespace array

/-- `size()`: `return Size;`. -/
def size {α : Type} {n : Nat} (_ : array α n) : Nat := n

/-- `max_size()`: `return Size;`. -/
def max_size {α : Type} {n : Nat} (_ : array α n) : Nat := n

/-- `available()`: `return 0;`. -/
def available {α : Type} {n : Nat} (_ : array α n) : Nat := 0

/-- `empty()`: `return false;`. -/
def empty {α : Type} {n : Nat} (_ : array α n) : Bool := false

/-- `full()`: `return true;`. -/
def full {α : Type} {n : Nat} (_ : array α n) : Bool := true

/-- `at(index)` with `size_type = int`:
`BTN_ASSERT(index >= 0 && index < Size, ...); return _data[index];`.
`none` models the contract-violation (assertion) path. -/
def atIdx {α : Type} {n : Nat} (a : array α n) (index : Int) : Option α :=
  if h : 0 ≤ index ∧ index < (n : Int) then
    some (a._data.get ⟨index.toNat, by rw [a.size_eq]; omega⟩)
  else
    none

/-- `operator[](index)` — same body as `at(index)`:
`BTN_ASSERT(index >= 0 && index < Size, ...); return _data[index];`. -/
def opIndex {α : Type} {n : Nat} (a : array α n) (index : Int) : Option α :=
  if h : 0 ≤ index ∧ index < (n : Int) then
    some (a._data.get ⟨index.toNat, by rw [a.size_eq]; omega⟩)
  else
    none

/-- `fill(value)`: `btn::fill(begin(), end(), value);` — every element of
the range becomes `value`. -/
def fill {α : Type} {n : Nat} (a : array α n) (value : α) : array α n :=
  ⟨List.replicate a._data.length value, by rw [List.length_replicate, a.size_eq]⟩

/-- `swap(other)`: the loop exchanges the elements at every index of
`[0, Size)`, so the two arrays end up with each other's contents. -/
def swap {α : Type} {n : Nat} (a other : array α n) : array α n × array α n :=
  (⟨other._data, other.size_eq⟩, ⟨a._data, a.size_eq⟩)

/-- An element write through the reference returned by `operator[]`. -/
def writeElem {α : Type} {n : Nat} (a : array α n) (index : Nat) (value : α) :
    array α n :=
  ⟨a._data.set index value, by rw [List.length_set, a.size_eq]⟩

/-- `operator==`: size check, then `equal(a.begin(), a.end(), b.begin())`. -/
def beq {α : Type} {n : Nat} [DecidableEq α] (a b : array α n) : Bool :=
  if a.size ≠ b.size then false else equalRange a._data b._data

/-- `operator!=`: `return ! (a == b);`. -/
def bne {α : Type} {n : Nat} [DecidableEq α] (a b : array α n) : Bool :=
  !(beq a b)

/-- `operator<`: `lexicographical_compare(a.begin(), a.end(), b.begin(), b.end())`. -/
def blt {α : Type} {n : Nat} [LinearOrder α] (a b : array α n) : Bool :=
  lexLt a._data b._data

/-- `operator>`: `return b < a;`. -/
def bgt {α : Type} {n : Nat} [LinearOrder α] (a b : array α n) : Bool :=
  blt b a

/-- `operator<=`: `return ! (a > b);`. -/
def ble {α : Type} {n : Nat} [LinearOrder α] (a b : array α n) : Bool :=
  !(bgt a b)

/-- `operator>=`: `return ! (a < b);`. -/
def bge {α : Type} {n : Nat} [LinearOrder α] (a b : array α n) : Bool :=
  !(blt a b)

end array

/-- `to_array`: wraps a built-in array of `Size` elements (modelled as a
list of that length) into a `btn::array`. -/
def to_array {α : Type} {n : Nat} (base_array : List α)
    (h : base_array.length = n) : array α n :=
  ⟨base_array, h⟩

end btn

namespace btn

/-- `equalRange` decides list equality on ranges of the same length. -/
theorem equalRange_eq_true_iff {α : Type} [DecidableEq α] :
    ∀ xs ys : List α, xs.length = ys.length →
      (equalRange xs ys = true ↔ xs = ys)
  | [], [], _ => by simp [equalRange]
  | [], _ :: _, h => by simp at h
  | _ :: _, [], h => by simp at h
  | x :: xs, y :: ys, h => by
    have ih := equalRange_eq_true_iff xs ys (by simpa using h)
    simp [equalRange, Bool.and_eq_true, decide_eq_true_eq, ih]

/-- On two distinct lists of the same length, `lexLt` in both directions is
decided by the order of the elements at the first index where the lists
differ. -/
theorem lexLt_firstDiff {α : Type} [LinearOrder α] :
    ∀ xs ys : List α, xs.length = ys.length → xs ≠ ys →
      ∃ (k : Nat) (x y : α),
        xs.get? k = some x ∧ ys.get? k = some y ∧ x ≠ y ∧
        (∀ j, j < k → xs.get? j = ys.get? j) ∧
        lexLt xs ys = decide (x < y) ∧ lexLt ys xs = decide (y < x)
  | [], [], _, hne => absurd rfl hne
  | [], _ :: _, hlen, _ => by simp at hlen
  | _ :: _, [], hlen, _ => by simp at hlen
  | x :: xs, y :: ys, hlen, hne => by
    by_cases hxy : x = y
    · subst hxy
      have hne' : xs ≠ ys := fun hEq => hne (by rw [hEq])
      have hlen' : xs.length = ys.length := by simpa using hlen
      obtain ⟨k, c, d, h1, h2, h3, h4, h5, h6⟩ := lexLt_firstDiff xs ys hlen' hne'
      refine ⟨k + 1, c, d, by simpa using h1, by simpa using h2, h3, ?_, ?_, ?_⟩
      · intro j hj
        cases j with
        | zero => rfl
        | succ j => simpa using h4 j (Nat.lt_of_succ_lt_succ hj)
      · rw [show lexLt (x :: xs) (x :: ys) = lexLt xs ys by
          simp [lexLt, lt_irrefl]]
        exact h5
      · rw [show lexLt (x :: ys) (x :: xs) = lexLt ys xs by
          simp [lexLt, lt_irrefl]]
        exact h6
    · refine ⟨0, x, y, rfl, rfl, hxy, fun j hj => absurd hj (Nat.not_lt_zero j),
        ?_, ?_⟩
      · rcases lt_trichotomy x y with hlt | hEq | hgt
        · simp [lexLt, hlt]
        · exact absurd hEq hxy
        · simp [lexLt, hgt, lt_asymm hgt]
      · rcases lt_trichotomy x y with hlt | hEq | hgt
        · simp [lexLt, hlt, lt_asymm hlt]
        · exact absurd hEq hxy
        · simp [lexLt, hgt, lt_asymm hgt]

/-- C6: for every fixed sequence and every index outside `[0, Size)` —
negative indices and `Size` itself included — both `at(i)` and
`operator[](i)` take the contract-violation path; for every index inside
the range they return element `i` without violation. -/
theorem index_bounds_checked {α : Type} {n : Nat} (a : array α n) (i : Int) :
    (¬ (0 ≤ i ∧ i < (n : Int)) → a.atIdx i = none ∧ a.opIndex i = none) ∧
    ((0 ≤ i ∧ i < (n : Int)) →
      a.atIdx i = a._data.get? i.toNat ∧ a.opIndex i = a._data.get? i.toNat ∧
      (a.atIdx i).isSome = true) := by
  constructor
  · intro h
    simp [array.atIdx, array.opIndex, h]
  · intro h
    have hlt : i.toNat < a._data.length := by rw [a.size_eq]; omega
    rw [List.get?_eq_get hlt]
    simp [array.atIdx, array.opIndex, h]

/-- Witness for C6 at out-of-range and in-range concrete indices. -/
theorem index_bounds_checked_witness :
    array.atIdx (array.mk [10, 20] rfl : array Nat 2) (-1) = none ∧
    array.atIdx (array.mk [10, 20] rfl : array Nat 2) 2 = none ∧
    array.opIndex (array.mk [10, 20] rfl : array Nat 2) (-1) = none ∧
    array.atIdx (array.mk [10, 20] rfl : array Nat 2) 1 = some 20 :=
  ⟨((index_bounds_checked (array.mk [10, 20] rfl) (-1)).1 (by decide)).1,
   ((index_bounds_checked (array.mk [10, 20] rfl) 2).1 (by decide)).1,
   ((index_bounds_checked (array.mk [10, 20] rfl) (-1)).1 (by decide)).2,
   (((index_bounds_checked (array.mk [10, 20] rfl) 1).2 (by decide)).1).trans rfl⟩

/-- C7: for every fixed sequence with `Size > 0`, at construction and after
`fill`, `swap` and element writes, `size() == max_size() == Size`,
`available() == 0`, `empty() == false` and `full() == true`. -/
theorem capacity_invariants {α : Type} {n : Nat} (_hn : 0 < n)
    (a b : array α n) (v : α) (i : Nat) :
    a.size = n ∧ a.max_size = n ∧ a.available = 0 ∧
      a.empty = false ∧ a.full = true ∧
    (a.fill v).size = n ∧ (a.fill v).max_size = n ∧ (a.fill v).available = 0 ∧
      (a.fill v).empty = false ∧ (a.fill v).full = true ∧
    (array.swap a b).1.size = n ∧ (array.swap a b).1.max_size = n ∧
      (array.swap a b).1.available = 0 ∧ (array.swap a b).1.empty = false ∧
      (array.swap a b).1.full = true ∧
    (array.swap a b).2.size = n ∧ (array.swap a b).2.max_size = n ∧
      (array.swap a b).2.available = 0 ∧ (array.swap a b).2.empty = false ∧
      (array.swap a b).2.full = true ∧
    (a.writeElem i v).size = n ∧ (a.writeElem i v).max_size = n ∧
      (a.writeElem i v).available = 0 ∧ (a.writeElem i v).empty = false ∧
      (a.writeElem i v).full = true := by
  and_intros <;> rfl

/-- Witness for C7 at a concrete two-element sequence. -/
theorem capacity_invariants_witness :
    0 < 2 ∧ (array.mk [1, 2] rfl : array Nat 2).size = 2 :=
  ⟨by decide,
   (capacity_invariants (by decide) (array.mk [1, 2] rfl)
     (array.mk [3, 4] rfl) 9 0).1⟩

/-- C8: two fixed sequences of the same element type and size compare equal
iff their elements coincide at every index; otherwise `<`, `>`, `<=`, `>=`
are decided by the order of the elements at the first index where the
sequences differ. -/
theorem lexicographic_comparison {α : Type} [LinearOrder α] {n : Nat}
    (a b : array α n) :
    (array.beq a b = true ↔ ∀ i : Nat, a._data.get? i = b._data.get? i) ∧
    (array.beq a b = false →
      ∃ (k : Nat) (x y : α),
        a._data.get? k = some x ∧ b._data.get? k = some y ∧ x ≠ y ∧
        (∀ j, j < k → a._data.get? j = b._data.get? j) ∧
        array.blt a b = decide (x < y) ∧ array.bgt a b = decide (y < x) ∧
        array.ble a b = !decide (y < x) ∧ array.bge a b = !decide (x < y)) := by
  have hlen : a._data.length = b._data.length := by rw [a.size_eq, b.size_eq]
  have hbeq : array.beq a b = equalRange a._data b._data := by
    simp [array.beq, array.size]
  constructor
  · rw [hbeq, equalRange_eq_true_iff a._data b._data hlen]
    exact List.ext_get?_iff
  · intro hne
    have hne' : a._data ≠ b._data := by
      intro hEq
      have htrue := (equalRange_eq_true_iff a._data b._data hlen).mpr hEq
      rw [hbeq, htrue] at hne
      simp at hne
    obtain ⟨k, x, y, h1, h2, h3, h4, h5, h6⟩ :=
      lexLt_firstDiff a._data b._data hlen hne'
    exact ⟨k, x, y, h1, h2, h3, h4,
      by simpa [array.blt] using h5,
      by simpa [array.bgt, array.blt] using h6,
      by simp [array.ble, array.bgt, array.blt, h6],
      by simp [array.bge, array.blt, h5]⟩

/-- Witness for C8: a concrete sequence compares equal to itself. -/
theorem lexicographic_comparison_witness :
    array.beq (array.mk [1, 2] rfl : array Nat 2) (array.mk [1, 2] rfl) = true :=
  (lexicographic_comparison (array.mk [1, 2] rfl)
    (array.mk [1, 2] rfl)).1.mpr (fun _ => rfl)

/-- C9: `to_array` wraps a built-in array into a fixed sequence of the same
size whose elements equal, index by index, the elements of the input. -/
theorem to_array_preserves {α : Type} {n : Nat} (base_array : List α)
    (h : base_array.length = n) :
    (to_array base_array h).size = n ∧
    ∀ i : Nat, (to_array base_array h)._data.get? i = base_array.get? i :=
  ⟨rfl, fun _ => rfl⟩

/-- Witness for C9 at a concrete three-element array. -/
theorem to_array_preserves_witness :
    (to_array [1, 2, 3] rfl : array Nat 3).size = 3 ∧
    (to_array [1, 2, 3] rfl : array Nat 3)._data.get? 0 = some 1 :=
  ⟨(to_array_preserves [1, 2, 3] rfl).1,
   ((to_array_preserves [1, 2, 3] rfl).2 0).trans rfl⟩

end btn
